import Mathlib

/-!
Shallow embedding of the fetch-wrapper module of HypaVerse/Sale-Page
(`src/unnamed/part_000`) and proofs about the claims on its behaviour.

JavaScript values are modelled by the inductive `JSValue` (no prototype
chain, no cycles).  `process.env` is modelled by the `Env` structure of
optional string variables.  Promises are modelled by `Except JSValue α`
(`.error e` = the promise rejects with `e`, `.ok v` = it fulfills with `v`);
the timeout race additionally carries a discrete settle time.
-/

namespace SalePage

/-- A JavaScript runtime value, as far as this module observes them. -/
inductive JSValue where
  | undefined
  | null
  | boolean (b : Bool)
  | num (n : Int)
  | str (s : String)
  | obj (fields : List (String × JSValue))

/-- A JavaScript object as an own-property list in insertion order; a key
present with value `JSValue.undefined` is distinct from an absent key. -/
abbrev JSObj := List (String × JSValue)

/-- JS string interpolation of a value (template literals). -/
def jsToString : JSValue → String
  | .undefined => "undefined"
  | .null => "null"
  | .boolean b => if b then "true" else "false"
  | .num n => toString n
  | .str s => s
  | .obj _ => "[object Object]"

/-- The environment variables the module reads (`process.env.*`). -/
structure Env where
  DEFAULT_API_HOST : Option String
  DEFAULT_NODE_HOST : Option String
  DEFAULT_API_PORT : Option String
  DEFAULT_API_VERSION : Option String
deriving DecidableEq

/-- `process.env.X || fallback`: an unset variable and a variable set to the
empty string (falsy) both fall back. -/
def envOr (v : Option String) (fallback : String) : String :=
  match v with
  | some s => if s = "" then fallback else s
  | none => fallback

/-- An environment with no variables set. -/
def envEmpty : Env := ⟨none, none, none, none⟩

/-- Modelled from the spec: `Service` is imported from `types/index`, which is
not among the provided sources.  The spec describes it as `enum{PROXY, NODE}`;
as a TypeScript numeric enum declared in that order, `PROXY = 0` and
`NODE = 1` at runtime. -/
inductive Service where
  | PROXY
  | NODE
deriving DecidableEq

/-- The runtime (numeric) value of a `Service` enum member. -/
def serviceToJS : Service → JSValue
  | .PROXY => .num 0
  | .NODE => .num 1

/-- The `Method` enum of the module. -/
inductive Method where
  | GET
  | POST
  | PUT
  | DELETE
deriving DecidableEq

/-- `method.toString()`. -/
def methodToString : Method → String
  | .GET => "GET"
  | .POST => "POST"
  | .PUT => "PUT"
  | .DELETE => "DELETE"

/-- The numeric value of a list of decimal digit characters (`none` if any
character is not a digit). -/
def parseDecimal (cs : List Char) : Option Nat :=
  cs.foldl (fun acc c =>
    match acc with
    | none => none
    | some n => if c.isDigit then some (n * 10 + (c.toNat - 48)) else none)
    (some 0)

/-- A string is an ECMAScript array index: the canonical decimal numeral of a
natural number strictly below 2^32 - 1. -/
def isArrayIndex (s : String) : Bool :=
  match parseDecimal s.data with
  | some n => toString n = s && n < 4294967295
  | none => false

/-- The numeric value a key sorts by (array-index keys only). -/
def indexKeyValue (k : String) : Nat :=
  (parseDecimal k.data).getD 0

/-- Insert a key into a list of array-index keys, keeping ascending numeric
order (stable). -/
def insertIndexKey (k : String) : List String → List String
  | [] => [k]
  | x :: xs =>
    if indexKeyValue k < indexKeyValue x then k :: x :: xs
    else x :: insertIndexKey k xs

/-- Sort array-index keys ascending by numeric value (insertion sort, stable). -/
def sortIndexKeys : List String → List String
  | [] => []
  | x :: xs => insertIndexKey x (sortIndexKeys xs)

/-- `Object.keys` ordering per OrdinaryOwnPropertyKeys: own keys that are
array indices first, in ascending numeric order, then the remaining string
keys in insertion order. -/
def jsOwnKeys (q : JSObj) : List String :=
  let keys := q.map Prod.fst
  sortIndexKeys (keys.filter (fun k => isArrayIndex k))
    ++ keys.filter (fun k => !isArrayIndex k)

/-- JS property read `q[key]` on a plain object (absent key gives
`undefined`). -/
def jsGet (q : JSObj) (key : String) : JSValue :=
  (List.lookup key q).getD .undefined

/-- Lines 28-31: `Object.keys(query).map(key => ` the template
`key=query[key]` `).join('&')`; keys and values are interpolated verbatim,
with no URL-encoding. -/
def buildUrlQuery (query : JSObj) : String :=
  String.intercalate "&"
    ((jsOwnKeys query).map (fun key => key ++ "=" ++ jsToString (jsGet query key)))

/-- Lines 50-52: `host.substr(host.length - 1)` is the last character of
`host` (as a 1-character string, empty for the empty string); when it is
`'/'` the host is shortened by one character. -/
def stripTrailingSlash (host : String) : String :=
  if host.data.getLast? = some '/' then ⟨host.data.dropLast⟩ else host

/-- Line 46: `hostService[service || 0]`.  `Service.PROXY` is the (falsy)
number 0, so both `undefined` and `PROXY` index entry 0; `NODE` (1) indexes
entry 1. -/
def hostService (env : Env) (service : Option Service) : String :=
  match service with
  | some .NODE => envOr env.DEFAULT_NODE_HOST "https://node.mainnet.klever.finance"
  | _ => envOr env.DEFAULT_API_HOST "https://api.mainnet.klever.finance"

/-- Template interpolation of a `string | undefined` value. -/
def optInterp : Option String → String
  | some s => s
  | none => "undefined"

/-- Lines 62-64: `urlParam` is empty when `query` is `undefined` and
`?` followed by the serialized pairs when a query object is present (a
present object is truthy even when it has no keys). -/
def queryPart : Option JSObj → String
  | some q => "?" ++ buildUrlQuery q
  | none => ""

/-- Lines 33-67: the URL builder `getHost`. -/
def getHost (env : Env) (route : String) (query : Option JSObj)
    (service : Option Service) (apiVersion : Option String) : String :=
  let host0 := hostService env service
  let port0 := envOr env.DEFAULT_API_PORT ""
  let host1 := stripTrailingSlash host0
  let host2 :=
    match service with
    | some .PROXY =>
      let port1 := if port0 = "" then port0 else ":" ++ port0
      host1 ++ port1 ++ "/" ++ optInterp apiVersion
    | _ => host1
  host2 ++ "/" ++ route ++ queryPart query

/-- Lines 70-75: the default table of `getProps`. -/
def defaultValues (env : Env) : JSObj :=
  [("route", .str "/"),
   ("service", serviceToJS .PROXY),
   ("apiVersion", .str (envOr env.DEFAULT_API_VERSION "v1.0")),
   ("refreshTime", .num 60)]

/-- Lines 77-91: the `get` trap of the proxy returned by `getProps`: a name
present on the target (the `in` operator, so a key explicitly set to
`undefined` counts as present) reads through to the target, otherwise a name
present in the default table reads the default, otherwise `undefined`.
(The prototype chain, which `in` would also search, is not modelled.) -/
def resolveProp (env : Env) (target : JSObj) (name : String) : JSValue :=
  match List.lookup name target with
  | some v => v
  | none =>
    match List.lookup name (defaultValues env) with
    | some v => v
    | none => .undefined

/-! ## Executors -/

/-- What the module observes of a fetch `Response`: the success flag and the
promises returned by `response.json()` and `response.text()` (`.error e` is a
rejection, e.g. a JSON parse failure). -/
structure HttpResponse where
  ok : Bool
  jsonBody : Except JSValue JSValue
  textBody : Except JSValue String

/-- The request-init argument of `fetch`: the stringified method and, for the
with-body variant, the request body value (the source sends
`JSON.stringify(body)`; the behaviour receives the value itself, since no
claim observes the wire text). -/
structure FetchInit where
  method : String
  body : Option JSValue

/-- A behaviour of the underlying HTTP call: for each URL and request init,
`fetch` either rejects (network failure) or fulfills with a response. -/
abbrev FetchBehaviour := String → FetchInit → Except JSValue HttpResponse

/-- The failure envelope `data: null, error: err, code: 'internal_error'`. -/
def mkEnvelope (err : JSValue) : JSValue :=
  .obj [("data", .null), ("error", err), ("code", .str "internal_error")]

/-- The `TypeError` raised by a property access on `null` or `undefined`. -/
def typeErrorVal : JSValue := .obj [("name", .str "TypeError")]

/-- JS property access `v.error` etc.: throws `TypeError` on `null` and
`undefined`, reads own properties of objects, and yields `undefined` on
primitives. -/
def getField (v : JSValue) (name : String) : Except JSValue JSValue :=
  match v with
  | .undefined => .error typeErrorVal
  | .null => .error typeErrorVal
  | .obj fields => .ok ((List.lookup name fields).getD .undefined)
  | _ => .ok .undefined

/-- The destructuring `const ... = getProps(props)` followed by the
`getHost(route, query, service, apiVersion)` call: each name goes through the
proxy's `get` trap, and the resolved values are used at their TypeScript
types (`route` and `apiVersion` are template-interpolated, `query` is
truthiness-tested and key-enumerated, `service` is the numeric enum or
`undefined`). -/
def resolvedUrl (env : Env) (props : JSObj) : String :=
  let route := jsToString (resolveProp env props "route")
  let query :=
    match resolveProp env props "query" with
    | .obj q => some q
    | _ => none
  let service :=
    match resolveProp env props "service" with
    | .num 0 => some Service.PROXY
    | .num 1 => some Service.NODE
    | _ => none
  let apiVersion :=
    match resolveProp env props "apiVersion" with
    | .undefined => none
    | v => some (jsToString v)
  getHost env route query service apiVersion

/-- Lines 98-116, the `try` block of `withoutBody`.  The outer `Except` is
an exception thrown at an `await` inside the block (routed to the `catch`
clause); the inner `Except` is the settled outcome of the promise the block
returns.  On a non-success status `response.json()` is awaited (so its
rejection is thrown inside the block), its `error` field is read and the
failure envelope is fulfilled; on success `response.json()` is returned
WITHOUT `await`, so the async function adopts that promise as-is and its
rejection does not pass through the `catch` clause. -/
def withoutBodyTry (env : Env) (props : JSObj) (method : Method)
    (beh : FetchBehaviour) : Except JSValue (Except JSValue JSValue) :=
  match beh (resolvedUrl env props) ⟨methodToString method, none⟩ with
  | .error e => .error e
  | .ok response =>
    if !response.ok then
      match response.jsonBody with
      | .error e => .error e
      | .ok j =>
        match getField j "error" with
        | .error e => .error e
        | .ok errField => .ok (.ok (mkEnvelope errField))
    else .ok response.jsonBody

/-- Lines 94-120: `withoutBody` = the `try` block with its `catch` clause,
which converts an exception thrown inside the block into a fulfilled failure
envelope; a promise returned by the block is adopted unchanged. -/
def withoutBody (env : Env) (props : JSObj) (method : Method)
    (beh : FetchBehaviour) : Except JSValue JSValue :=
  match withoutBodyTry env props method beh with
  | .ok r => r
  | .error e => .ok (mkEnvelope e)

/-- Lines 122-131, the `try` block of `withBody`: as `withoutBodyTry`, but
the resolved `body` field is serialized and sent. -/
def withBodyTry (env : Env) (props : JSObj) (method : Method)
    (beh : FetchBehaviour) : Except JSValue (Except JSValue JSValue) :=
  match beh (resolvedUrl env props)
      ⟨methodToString method, some (resolveProp env props "body")⟩ with
  | .error e => .error e
  | .ok response =>
    if !response.ok then
      match response.jsonBody with
      | .error e => .error e
      | .ok j =>
        match getField j "error" with
        | .error e => .error e
        | .ok errField => .ok (.ok (mkEnvelope errField))
    else .ok response.jsonBody

/-- Lines 122-145: `withBody` with its `catch` clause. -/
def withBody (env : Env) (props : JSObj) (method : Method)
    (beh : FetchBehaviour) : Except JSValue JSValue :=
  match withBodyTry env props method beh with
  | .ok r => r
  | .error e => .ok (mkEnvelope e)

/-- Lines 147-166, the `try` block of `withText`: as `withoutBodyTry`, but a
successful response is read with `response.text()` (again returned without
`await`, so the block returns that promise, mapped to a string value when it
fulfils). -/
def withTextTry (env : Env) (props : JSObj) (method : Method)
    (beh : FetchBehaviour) : Except JSValue (Except JSValue JSValue) :=
  match beh (resolvedUrl env props) ⟨methodToString method, none⟩ with
  | .error e => .error e
  | .ok response =>
    if !response.ok then
      match response.jsonBody with
      | .error e => .error e
      | .ok j =>
        match getField j "error" with
        | .error e => .error e
        | .ok errField => .ok (.ok (mkEnvelope errField))
    else
      .ok (match response.textBody with
        | .error e => .error e
        | .ok t => .ok (.str t))

/-- Lines 147-170: `withText` with its `catch` clause. -/
def withText (env : Env) (props : JSObj) (method : Method)
    (beh : FetchBehaviour) : Except JSValue JSValue :=
  match withTextTry env props method beh with
  | .ok r => r
  | .error e => .ok (mkEnvelope e)

/-! ## Timeout racer and facade -/

/-- A pending promise with a discrete settle time: `settlesAt = none` means
it never settles; otherwise it settles at that instant with `result`
(`.error` = rejection). -/
structure PendingOp where
  settlesAt : Option Nat
  result : Except JSValue JSValue

/-- The default of the `timeout` parameter (line 174). -/
def defaultTimeout : Nat := 10000

/-- Lines 172-184: `withTimeout` races the operation against a timer that
fulfils the fixed timeout envelope after `timeout` units.  The returned pair
is the settled outcome and the instant at which the race settles; the
operation wins every tie since it is listed first in `Promise.race`. -/
def withTimeout (op : PendingOp) (timeout : Nat) :
    Except JSValue JSValue × Nat :=
  match op.settlesAt with
  | some t =>
    if t ≤ timeout then (op.result, t)
    else (.ok (mkEnvelope (.str "Fetch timeout")), timeout)
  | none => (.ok (mkEnvelope (.str "Fetch timeout")), timeout)

/-- Lines 186-188: `api.get`, the no-body executor (method GET) raced against
the default timeout.  `settlesAt` is the instant at which the executor's
promise settles (`none` when the underlying call never settles). -/
def apiGet (env : Env) (props : JSObj) (beh : FetchBehaviour)
    (settlesAt : Option Nat) : Except JSValue JSValue × Nat :=
  withTimeout ⟨settlesAt, withoutBody env props .GET beh⟩ defaultTimeout

/-- Lines 189-190: `api.post`, the with-body executor (method POST) raced
against the default timeout. -/
def apiPost (env : Env) (props : JSObj) (beh : FetchBehaviour)
    (settlesAt : Option Nat) : Except JSValue JSValue × Nat :=
  withTimeout ⟨settlesAt, withBody env props .POST beh⟩ defaultTimeout

/-- Lines 191-192: `api.text`, the text executor (method GET) raced against
the default timeout. -/
def apiText (env : Env) (props : JSObj) (beh : FetchBehaviour)
    (settlesAt : Option Nat) : Except JSValue JSValue × Nat :=
  withTimeout ⟨settlesAt, withText env props .GET beh⟩ defaultTimeout

/-- A promise outcome is a fulfillment (as opposed to a rejection, which an
`async` caller observes as a thrown exception). -/
def isFulfilled : Except JSValue JSValue → Bool
  | .ok _ => true
  | .error _ => false

/-! ## Helper lemmas -/

theorem stripTrailingSlash_concat (s : String) :
    stripTrailingSlash (s ++ "/") = s := by
  have h1 : (s ++ "/").data = s.data ++ ['/'] := by rw [String.data_append]
  unfold stripTrailingSlash
  rw [h1, List.getLast?_concat, if_pos rfl, List.dropLast_concat]

theorem stripTrailingSlash_of_no_slash (host : String)
    (h : host.data.getLast? ≠ some '/') : stripTrailingSlash host = host := by
  unfold stripTrailingSlash
  rw [if_neg h]

/-! ## Claims -/

/-- C1: the resolver returned by `getProps` is a transparent read-through —
a field the caller set resolves to the caller's value; a field unset by the
caller resolves to its default (`route` to "/", `service` to `PROXY`,
`apiVersion` to the environment value or "v1.0", `refreshTime` to 60); a
field absent from both the descriptor and the default table resolves to
`undefined`. -/
theorem c1_getProps_read_through (env : Env) (props : JSObj) (name : String) :
    (∀ v, List.lookup name props = some v → resolveProp env props name = v)
  ∧ (List.lookup name props = none →
      List.lookup name (defaultValues env) = none →
      resolveProp env props name = .undefined)
  ∧ (List.lookup "route" props = none →
      resolveProp env props "route" = .str "/")
  ∧ (List.lookup "service" props = none →
      resolveProp env props "service" = serviceToJS .PROXY)
  ∧ (List.lookup "apiVersion" props = none →
      resolveProp env props "apiVersion"
        = .str (envOr env.DEFAULT_API_VERSION "v1.0"))
  ∧ (List.lookup "refreshTime" props = none →
      resolveProp env props "refreshTime" = .num 60) := by
  refine ⟨fun v hv => by simp [resolveProp, hv],
    fun h1 h2 => by simp [resolveProp, h1, h2],
    fun h => ?_, fun h => ?_, fun h => ?_, fun h => ?_⟩ <;>
    simp [resolveProp, defaultValues, List.lookup, serviceToJS, h]

/-- Witness for C1 at a concrete descriptor that sets `route` only, in an
environment that sets `DEFAULT_API_VERSION` to "v2". -/
theorem c1_getProps_read_through_witness :
    resolveProp ⟨none, none, none, some "v2"⟩ [("route", .str "/assets")]
        "route" = .str "/assets"
  ∧ resolveProp ⟨none, none, none, some "v2"⟩ [("route", .str "/assets")]
        "service" = .num 0
  ∧ resolveProp ⟨none, none, none, some "v2"⟩ [("route", .str "/assets")]
        "apiVersion" = .str "v2"
  ∧ resolveProp ⟨none, none, none, some "v2"⟩ [("route", .str "/assets")]
        "refreshTime" = .num 60
  ∧ resolveProp ⟨none, none, none, some "v2"⟩ [("route", .str "/assets")]
        "bogus" = .undefined := by
  have h := c1_getProps_read_through ⟨none, none, none, some "v2"⟩
    [("route", .str "/assets")]
  exact ⟨(h "route").1 _ rfl, (h "service").2.2.2.1 rfl,
    (h "apiVersion").2.2.2.2.1 rfl, (h "refreshTime").2.2.2.2.2 rfl,
    (h "bogus").2.1 rfl rfl⟩

/-- C9: a field key present on the descriptor with the explicit value
`undefined` counts as set (the `in` operator tests presence, not
definedness), so the resolver yields `undefined` for it instead of the
default. -/
theorem c9_explicit_undefined_is_set (env : Env) (props : JSObj)
    (name : String) (h : List.lookup name props = some .undefined) :
    resolveProp env props name = .undefined := by
  simp [resolveProp, h]

/-- Witness for C9: `route: "/x", apiVersion: undefined` resolves
`apiVersion` to `undefined`, not to the default "v1.0". -/
theorem c9_explicit_undefined_is_set_witness :
    resolveProp envEmpty [("route", .str "/x"), ("apiVersion", .undefined)]
        "apiVersion" = .undefined
  ∧ resolveProp envEmpty [("route", .str "/x"), ("apiVersion", .undefined)]
        "apiVersion" ≠ .str "v1.0" := by
  have h := c9_explicit_undefined_is_set envEmpty
    [("route", .str "/x"), ("apiVersion", .undefined)] "apiVersion" rfl
  exact ⟨h, by rw [h]; intro hc; exact JSValue.noConfusion hc⟩

/-- C2: whenever the HTTP call fulfils with a failure-status response whose
body parses as JSON, each executor variant fulfils with the envelope
`data: null, error:` the `error` field of the parsed body,
`code: 'internal_error'`. -/
theorem c2_failure_status_envelope (env : Env) (props : JSObj)
    (method : Method) (beh : FetchBehaviour) (resp : HttpResponse)
    (j e : JSValue)
    (hbeh : ∀ url init, beh url init = .ok resp)
    (hok : resp.ok = false)
    (hjson : resp.jsonBody = .ok j)
    (herr : getField j "error" = .ok e) :
    withoutBody env props method beh = .ok (mkEnvelope e)
  ∧ withBody env props method beh = .ok (mkEnvelope e)
  ∧ withText env props method beh = .ok (mkEnvelope e) := by
  refine ⟨?_, ?_, ?_⟩ <;>
    simp [withoutBody, withBody, withText, withoutBodyTry, withBodyTry,
      withTextTry, hbeh, hok, hjson, herr]

/-- Witness for C2: a mock call fulfilling with a non-success status and body
`error: "bad"` makes each executor return
`data: null, error: "bad", code: "internal_error"`. -/
theorem c2_failure_status_envelope_witness :
    withoutBody envEmpty [] .GET
        (fun _ _ => .ok ⟨false, .ok (.obj [("error", .str "bad")]), .ok ""⟩)
      = .ok (.obj [("data", .null), ("error", .str "bad"),
          ("code", .str "internal_error")])
  ∧ withBody envEmpty [] .POST
        (fun _ _ => .ok ⟨false, .ok (.obj [("error", .str "bad")]), .ok ""⟩)
      = .ok (.obj [("data", .null), ("error", .str "bad"),
          ("code", .str "internal_error")])
  ∧ withText envEmpty [] .GET
        (fun _ _ => .ok ⟨false, .ok (.obj [("error", .str "bad")]), .ok ""⟩)
      = .ok (.obj [("data", .null), ("error", .str "bad"),
          ("code", .str "internal_error")]) := by
  have hg := c2_failure_status_envelope envEmpty [] .GET
    (fun _ _ => .ok ⟨false, .ok (.obj [("error", .str "bad")]), .ok ""⟩)
    ⟨false, .ok (.obj [("error", .str "bad")]), .ok ""⟩
    (.obj [("error", .str "bad")]) (.str "bad")
    (fun _ _ => rfl) rfl rfl rfl
  have hp := c2_failure_status_envelope envEmpty [] .POST
    (fun _ _ => .ok ⟨false, .ok (.obj [("error", .str "bad")]), .ok ""⟩)
    ⟨false, .ok (.obj [("error", .str "bad")]), .ok ""⟩
    (.obj [("error", .str "bad")]) (.str "bad")
    (fun _ _ => rfl) rfl rfl rfl
  exact ⟨hg.1, hp.2.1, hg.2.2⟩

/-- C4: whenever the HTTP call fulfils with a success-status response, the
no-body and with-body executors fulfil with the parsed JSON body verbatim and
the text executor fulfils with the response text verbatim — no envelope. -/
theorem c4_success_verbatim (env : Env) (props : JSObj) (method : Method)
    (beh : FetchBehaviour) (resp : HttpResponse) (j : JSValue) (t : String)
    (hbeh : ∀ url init, beh url init = .ok resp)
    (hok : resp.ok = true)
    (hjson : resp.jsonBody = .ok j)
    (htext : resp.textBody = .ok t) :
    withoutBody env props method beh = .ok j
  ∧ withBody env props method beh = .ok j
  ∧ withText env props method beh = .ok (.str t) := by
  refine ⟨?_, ?_, ?_⟩ <;>
    simp [withoutBody, withBody, withText, withoutBodyTry, withBodyTry,
      withTextTry, hbeh, hok, hjson, htext]

/-- Witness for C4: a successful call returning the JSON object `x: 1` is
returned as that object itself, and a successful text body "hello" as the
string "hello". -/
theorem c4_success_verbatim_witness :
    withoutBody envEmpty [] .GET
        (fun _ _ => .ok ⟨true, .ok (.obj [("x", .num 1)]), .ok "hello"⟩)
      = .ok (.obj [("x", .num 1)])
  ∧ withBody envEmpty [] .POST
        (fun _ _ => .ok ⟨true, .ok (.obj [("x", .num 1)]), .ok "hello"⟩)
      = .ok (.obj [("x", .num 1)])
  ∧ withText envEmpty [] .GET
        (fun _ _ => .ok ⟨true, .ok (.obj [("x", .num 1)]), .ok "hello"⟩)
      = .ok (.str "hello") := by
  have hg := c4_success_verbatim envEmpty [] .GET
    (fun _ _ => .ok ⟨true, .ok (.obj [("x", .num 1)]), .ok "hello"⟩)
    ⟨true, .ok (.obj [("x", .num 1)]), .ok "hello"⟩
    (.obj [("x", .num 1)]) "hello" (fun _ _ => rfl) rfl rfl rfl
  have hp := c4_success_verbatim envEmpty [] .POST
    (fun _ _ => .ok ⟨true, .ok (.obj [("x", .num 1)]), .ok "hello"⟩)
    ⟨true, .ok (.obj [("x", .num 1)]), .ok "hello"⟩
    (.obj [("x", .num 1)]) "hello" (fun _ _ => rfl) rfl rfl rfl
  exact ⟨hg.1, hp.2.1, hg.2.2⟩

/-- C3 counterexample: the claim "the executors and the facade operations
never reject" is false.  On a success-status response the executor returns
`response.json()` without `await`, so a JSON parse rejection on the success
path escapes the `try`/`catch`: with a mock whose success body fails to
parse, `withoutBody` rejects with the parse error, and so does the facade
`get` when that rejection settles within the timeout. -/
theorem c3_counterexample_success_parse_escapes :
    withoutBody envEmpty [] .GET
        (fun _ _ => .ok ⟨true, .error (.str "SyntaxError"), .ok "nope"⟩)
      = .error (.str "SyntaxError")
  ∧ isFulfilled (withoutBody envEmpty [] .GET
        (fun _ _ => .ok ⟨true, .error (.str "SyntaxError"), .ok "nope"⟩))
      = false
  ∧ apiGet envEmpty []
        (fun _ _ => .ok ⟨true, .error (.str "SyntaxError"), .ok "nope"⟩)
        (some 5)
      = (.error (.str "SyntaxError"), 5) :=
  ⟨rfl, rfl, rfl⟩

/-- C3 as amended: exceptions raised and awaited inside the `try` block — a
rejecting `fetch`, or on a failure-status response the body-JSON parse — are
caught and the executor fulfils with the envelope `data: null, error:` the
caught value, `code: 'internal_error'`; but on a success-status response the
body-parse promise (`json()`/`text()`) is returned without `await`, so its
rejection escapes to the caller, and the facade operations forward the
executor's settled outcome (including such a rejection) whenever it settles
within the timeout. -/
theorem c3_amended_catch_scope (env : Env) (props : JSObj) (method : Method)
    (beh : FetchBehaviour) (e : JSValue) :
    ((∀ url init, beh url init = .error e) →
        withoutBody env props method beh = .ok (mkEnvelope e)
      ∧ withBody env props method beh = .ok (mkEnvelope e)
      ∧ withText env props method beh = .ok (mkEnvelope e))
  ∧ (∀ resp, (∀ url init, beh url init = .ok resp) → resp.ok = false →
        resp.jsonBody = .error e →
        withoutBody env props method beh = .ok (mkEnvelope e)
      ∧ withBody env props method beh = .ok (mkEnvelope e)
      ∧ withText env props method beh = .ok (mkEnvelope e))
  ∧ (∀ resp, (∀ url init, beh url init = .ok resp) → resp.ok = true →
        resp.jsonBody = .error e →
        withoutBody env props method beh = .error e
      ∧ withBody env props method beh = .error e)
  ∧ (∀ resp, (∀ url init, beh url init = .ok resp) → resp.ok = true →
        resp.textBody = .error e →
        withText env props method beh = .error e)
  ∧ (∀ t, t ≤ defaultTimeout →
        apiGet env props beh (some t) = (withoutBody env props .GET beh, t)
      ∧ apiPost env props beh (some t) = (withBody env props .POST beh, t)
      ∧ apiText env props beh (some t) = (withText env props .GET beh, t)) := by
  refine ⟨fun hbeh => ⟨?_, ?_, ?_⟩, fun resp hbeh hok hjson => ⟨?_, ?_, ?_⟩,
    fun resp hbeh hok hjson => ⟨?_, ?_⟩, fun resp hbeh hok htext => ?_,
    fun t ht => ⟨?_, ?_, ?_⟩⟩ <;>
    simp [withoutBody, withBody, withText, withoutBodyTry, withBodyTry,
      withTextTry, apiGet, apiPost, apiText, withTimeout, *]

/-- Witness for C3 as amended: a fetch that rejects with "boom" is caught and
each executor fulfils with the failure envelope. -/
theorem c3_amended_catch_scope_witness :
    withoutBody envEmpty [] .GET (fun _ _ => .error (.str "boom"))
      = .ok (.obj [("data", .null), ("error", .str "boom"),
          ("code", .str "internal_error")])
  ∧ withText envEmpty [] .GET (fun _ _ => .error (.str "boom"))
      = .ok (.obj [("data", .null), ("error", .str "boom"),
          ("code", .str "internal_error")]) := by
  have h := (c3_amended_catch_scope envEmpty [] .GET
    (fun _ _ => .error (.str "boom")) (.str "boom")).1 (fun _ _ => rfl)
  exact ⟨h.1, h.2.2⟩

/-- C5: the timeout race settles with whichever side settles first — the
operation's own result at its settle time when that is within the duration,
and otherwise (the duration elapsing first, or the operation never settling)
the envelope `data: null, error: "Fetch timeout", code: 'internal_error'`
exactly when the duration elapses; the default duration is 10000, and a
facade call whose underlying HTTP call never settles yields the timeout
envelope at exactly the default timeout. -/
theorem c5_timeout_race (op : PendingOp) (timeout t : Nat) (env : Env)
    (props : JSObj) (beh : FetchBehaviour) :
    (op.settlesAt = some t → t ≤ timeout →
      withTimeout op timeout = (op.result, t))
  ∧ (op.settlesAt = some t → timeout < t →
      withTimeout op timeout = (.ok (mkEnvelope (.str "Fetch timeout")), timeout))
  ∧ (op.settlesAt = none →
      withTimeout op timeout = (.ok (mkEnvelope (.str "Fetch timeout")), timeout))
  ∧ defaultTimeout = 10000
  ∧ apiGet env props beh none
      = (.ok (mkEnvelope (.str "Fetch timeout")), defaultTimeout)
  ∧ apiPost env props beh none
      = (.ok (mkEnvelope (.str "Fetch timeout")), defaultTimeout)
  ∧ apiText env props beh none
      = (.ok (mkEnvelope (.str "Fetch timeout")), defaultTimeout) := by
  refine ⟨fun hs hle => ?_, fun hs hlt => ?_, fun hs => ?_, rfl, rfl, rfl, rfl⟩
  · simp [withTimeout, hs, hle]
  · simp [withTimeout, hs, Nat.not_le.mpr hlt]
  · simp [withTimeout, hs]

/-- Witness for C5: an operation settling at instant 3 with value "hi" beats
a timeout of 10 and its result is returned at instant 3; one settling at 42
loses and the timeout envelope is returned at instant 10. -/
theorem c5_timeout_race_witness :
    withTimeout ⟨some 3, .ok (.str "hi")⟩ 10 = (.ok (.str "hi"), 3)
  ∧ withTimeout ⟨some 42, .ok (.str "hi")⟩ 10
      = (.ok (.obj [("data", .null), ("error", .str "Fetch timeout"),
          ("code", .str "internal_error")]), 10) := by
  have h1 := (c5_timeout_race ⟨some 3, .ok (.str "hi")⟩ 10 3 envEmpty []
    (fun _ _ => .error .undefined)).1 rfl (by omega)
  have h2 := (c5_timeout_race ⟨some 42, .ok (.str "hi")⟩ 10 42 envEmpty []
    (fun _ _ => .error .undefined)).2.1 rfl (by omega)
  exact ⟨h1, h2⟩

/-- C6 counterexample: the claim that the serialized query pairs follow key
insertion order is false.  With insertion order `b` before `0`, the key `0`
is an array-index key, so `Object.keys` enumerates it first and the URL ends
in `?0=w&b=v`, not `?b=v&0=w`. -/
theorem c6_counterexample_index_keys_first :
    getHost envEmpty "r" (some [("b", .str "v"), ("0", .str "w")])
        (some .NODE) none
      = "https://node.mainnet.klever.finance/r?0=w&b=v"
  ∧ "https://node.mainnet.klever.finance/r?0=w&b=v"
      ≠ "https://node.mainnet.klever.finance/r?b=v&0=w" :=
  ⟨rfl, by decide⟩

/-- C6 as amended: for every supplied non-empty query mapping, the query
string appended to the URL is `?` followed by the mapping's `key=value`
pairs joined by `&`, with keys and values interpolated verbatim and no
URL-encoding; the pair order is the JS own-property order — array-index keys
first in ascending numeric order, then the remaining keys in insertion
order — which coincides with key insertion order whenever no key is an
array-index string. -/
theorem c6_amended_query_serialization (env : Env) (route : String)
    (q : JSObj) (service : Option Service) (apiVersion : Option String)
    (hne : q ≠ []) :
    getHost env route (some q) service apiVersion
      = getHost env route none service apiVersion ++ "?"
        ++ String.intercalate "&"
            ((jsOwnKeys q).map (fun k => k ++ "=" ++ jsToString (jsGet q k)))
  ∧ ((∀ k ∈ q.map Prod.fst, isArrayIndex k = false) →
      jsOwnKeys q = q.map Prod.fst) := by
  constructor
  · apply String.ext
    simp [getHost, queryPart, buildUrlQuery]
  · intro hall
    have h1 : List.filter (fun k => isArrayIndex k) (q.map Prod.fst) = [] :=
      List.filter_eq_nil_iff.mpr (fun a ha => by simp [hall a ha])
    have h2 : List.filter (fun k => !isArrayIndex k) (q.map Prod.fst)
        = q.map Prod.fst :=
      List.filter_eq_self.mpr (fun a ha => by simp [hall a ha])
    simp [jsOwnKeys, h1, h2, sortIndexKeys]

/-- Witness for C6 as amended: the query `a: 1, b: 2` (no array-index keys)
serializes in insertion order as `?a=1&b=2` on the end of the URL. -/
theorem c6_amended_query_serialization_witness :
    getHost envEmpty "r" (some [("a", .str "1"), ("b", .str "2")])
        (some .NODE) none
      = "https://node.mainnet.klever.finance/r?a=1&b=2"
  ∧ jsOwnKeys [("a", .str "1"), ("b", .str "2")] = ["a", "b"] := by
  have h := c6_amended_query_serialization envEmpty "r"
    [("a", .str "1"), ("b", .str "2")] (some .NODE) none (by intro hc; cases hc)
  exact ⟨h.1.trans (by decide), h.2 (by decide)⟩

/-- C7: the URL builder appends the optional environment port and the API
version segment to the selected host exactly when the service selector is
`PROXY`; for `NODE` (and for an absent selector) the stripped host is used
with no port and no version segment. -/
theorem c7_port_version_iff_proxy (env : Env) (route : String)
    (q : Option JSObj) (apiVersion : Option String) :
    getHost env route q (some .PROXY) apiVersion
      = stripTrailingSlash (hostService env (some .PROXY))
        ++ (if envOr env.DEFAULT_API_PORT "" = "" then ""
            else ":" ++ envOr env.DEFAULT_API_PORT "")
        ++ "/" ++ optInterp apiVersion ++ "/" ++ route ++ queryPart q
  ∧ getHost env route q (some .NODE) apiVersion
      = stripTrailingSlash (hostService env (some .NODE))
        ++ "/" ++ route ++ queryPart q
  ∧ getHost env route q none apiVersion
      = stripTrailingSlash (hostService env none)
        ++ "/" ++ route ++ queryPart q := by
  refine ⟨?_, rfl, rfl⟩
  show stripTrailingSlash (hostService env (some .PROXY))
      ++ (if envOr env.DEFAULT_API_PORT "" = "" then envOr env.DEFAULT_API_PORT ""
          else ":" ++ envOr env.DEFAULT_API_PORT "")
      ++ "/" ++ optInterp apiVersion ++ "/" ++ route ++ queryPart q = _
  by_cases hp : envOr env.DEFAULT_API_PORT "" = "" <;>
    simp [hp]

/-- C8: the URL builder strips a trailing slash from the selected host
exactly once when one is present and leaves the host unchanged otherwise; a
node host configured with two trailing slashes retains one of them in the
built URL. -/
theorem c8_trailing_slash_stripped_once (s host route : String) (env : Env) :
    stripTrailingSlash (s ++ "/") = s
  ∧ (host.data.getLast? ≠ some '/' → stripTrailingSlash host = host)
  ∧ (env.DEFAULT_NODE_HOST = some (s ++ "//") →
      getHost env route none (some .NODE) none = (s ++ "/") ++ "/" ++ route) := by
  refine ⟨stripTrailingSlash_concat s,
    fun h => stripTrailingSlash_of_no_slash host h, fun h => ?_⟩
  have hsplit : s ++ "//" = (s ++ "/") ++ "/" := by
    apply String.ext
    simp
  have hne : s ++ "//" ≠ "" := by
    intro hc
    have := congrArg String.data hc
    simp at this
  have hhost : hostService env (some .NODE) = s ++ "//" := by
    simp [hostService, h, envOr, hne]
  show stripTrailingSlash (hostService env (some .NODE)) ++ "/" ++ route
      ++ queryPart none = _
  rw [hhost, hsplit, stripTrailingSlash_concat, queryPart,
    String.append_empty]

/-- Witness for C8: the default node host (no trailing slash) is unchanged,
an explicit host "https://h//" keeps one slash, and the built URL for that
host is "https://h//r". -/
theorem c8_trailing_slash_stripped_once_witness :
    stripTrailingSlash ("https://h" ++ "/") = "https://h"
  ∧ stripTrailingSlash "https://node.mainnet.klever.finance"
      = "https://node.mainnet.klever.finance"
  ∧ getHost ⟨none, some "https://h//", none, none⟩ "r" none (some .NODE) none
      = "https://h//r" := by
  have h := c8_trailing_slash_stripped_once "https://h"
    "https://node.mainnet.klever.finance" "r" ⟨none, some "https://h//", none, none⟩
  exact ⟨h.1, h.2.1 (by decide), (h.2.2 (by decide)).trans (by decide)⟩

/-- C10: a supplied query mapping with no keys still appends the query
prefix, so the URL is the query-less URL with a bare `?` appended; the `?`
is omitted exactly when the query mapping itself is absent. -/
theorem c10_empty_query_bare_question (env : Env) (route : String)
    (service : Option Service) (apiVersion : Option String) :
    getHost env route (some []) service apiVersion
      = getHost env route none service apiVersion ++ "?" := by
  apply String.ext
  simp [getHost, queryPart, buildUrlQuery, jsOwnKeys, sortIndexKeys]
  rfl

end SalePage
